import Mathlib

/-!
# Verification of the scraper-registry core of `mysqld_exporter`

Shallow embedding of the two source files:

* the scraper registry (`registerScraper`, `LookupScraper`, `IsScraperEnabled`,
  `SetScraperEnabled`, `AllScraperFlags`, `AllScrapers`,
  `mustRegisterScraperWithDefaults`), and
* the heartbeat exemplar scraper (`ScrapeHeartbeat`: `Args`, `Configure`,
  `Scrape`, `nowExpr`, the declared argument definitions).

Go's `map[string]T` is embedded as an association list with pairwise-distinct
keys (`assocLookup` / `assocInsert`).  A `range` loop over a Go map visits the
entries in an unspecified order, so every embedded function that iterates over
a map is either proved order-independent or is parameterised by the iteration
order (a permutation of the entries).  Mutation of a `*scraperEntry` reached
through the map is embedded as functional update of the corresponding entry.
-/

/-! ## Argument model

Go passes argument values as `interface{}`; the concrete values used by the
program are strings, booleans and numbers, embedded as a tagged variant. -/

inductive GoValue where
  | str (s : String)
  | bool (b : Bool)
  | num (q : ℚ)
deriving DecidableEq

inductive GoTag where
  | str
  | bool
  | num
deriving DecidableEq

def GoValue.tag : GoValue → GoTag
  | .str _ => .str
  | .bool _ => .bool
  | .num _ => .num

/-- An `Arg`: a named configuration value (`{name, value}`). -/
structure Arg where
  name : String
  value : GoValue
deriving DecidableEq

/-- An `argDef`: a declared argument with its help text and default value. -/
structure argDef where
  name : String
  help : String
  defaultValue : GoValue
deriving DecidableEq

/-- Configuration errors produced by `Configure`.  The constructors mirror the
call sites `wrongArgTypeError(s.Name(), arg.Name(), arg.Value())` and
`unknownArgError(s.Name(), arg.Name())`: each bears the scraper name and the
argument name. -/
inductive ConfigError where
  | wrongArgType (scraperName : String) (argName : String) (value : GoValue)
  | unknownArg (scraperName : String) (argName : String)
deriving DecidableEq

def wrongArgTypeError (scraperName : String) (argName : String) (value : GoValue) : ConfigError :=
  .wrongArgType scraperName argName value

def unknownArgError (scraperName : String) (argName : String) : ConfigError :=
  .unknownArg scraperName argName

/-- Modelled from the spec: the bodies of `wrongArgTypeError`/`unknownArgError`
live outside `src/`; per the spec both errors bear the scraper name and the
argument name, rendered here into the message. -/
def ConfigError.message : ConfigError → String
  | .wrongArgType sn an _ => "wrong type for argument " ++ an ++ " of scraper " ++ sn
  | .unknownArg sn an => "unknown argument " ++ an ++ " for scraper " ++ sn

/-- Modelled from the spec: `defaultArgs` lives outside `src/`; per the spec it
"materializes one Arg per ArgDef using its default". -/
def defaultArgs (defs : List argDef) : List Arg :=
  defs.map (fun d => ⟨d.name, d.defaultValue⟩)

/-! ## Heartbeat scraper (from `src/collector/heartbeat.go`) -/

def heartbeatDatabase : String := "database"

def heartbeatTable : String := "table"

def heartbeatUtc : String := "utc"

def heartbeatArgDefs : List argDef :=
  [⟨heartbeatDatabase, "Database from where to collect heartbeat data", .str "heartbeat"⟩,
   ⟨heartbeatTable, "Database from where to collect heartbeat data", .str "heartbeat"⟩,
   ⟨heartbeatUtc,
    "Use UTC for timestamps of the current server (`pt-heartbeat` is called with `--utc`)",
    .bool false⟩]

/-- The private state of `ScrapeHeartbeat` (`database`, `table`, `utc` strings
and booleans, plus the `enabled` atomic flag).  The Go zero value is
`⟨"", "", false, false⟩`. -/
structure ScrapeHeartbeat where
  database : String
  table : String
  utc : Bool
  enabled : Bool
deriving DecidableEq

def ScrapeHeartbeat.Name (_ : ScrapeHeartbeat) : String := "heartbeat"

def ScrapeHeartbeat.Help (_ : ScrapeHeartbeat) : String := "Collect from heartbeat"

def ScrapeHeartbeat.Version (_ : ScrapeHeartbeat) : ℚ := mkRat 51 10

def ScrapeHeartbeat.Enabled (s : ScrapeHeartbeat) : Bool := s.enabled

def ScrapeHeartbeat.SetEnabled (s : ScrapeHeartbeat) (enabled : Bool) : ScrapeHeartbeat :=
  { s with enabled := enabled }

/-- `Args()`: snapshot of the three configured values. -/
def ScrapeHeartbeat.Args (s : ScrapeHeartbeat) : List Arg :=
  [⟨heartbeatDatabase, .str s.database⟩,
   ⟨heartbeatTable, .str s.table⟩,
   ⟨heartbeatUtc, .bool s.utc⟩]

/-- Modelled from the spec: heartbeat's `ArgDefinitions()` method body lives
outside `src/`; per the spec a scraper's `ArgDefinitions()` returns its
declared ordered set of ArgDef, which for heartbeat is `heartbeatArgDefs`. -/
def ScrapeHeartbeat.ArgDefinitions (_ : ScrapeHeartbeat) : List argDef := heartbeatArgDefs

/-- `Configure(args...)`: the loop over the supplied arguments.  Each iteration
switches on the argument name, type-asserts the value and mutates the matching
field; the first failure returns immediately (the receiver keeps the mutations
already made, i.e. the already-consumed prefix stays applied). -/
def ScrapeHeartbeat.Configure (s : ScrapeHeartbeat) : List Arg → ScrapeHeartbeat × Option ConfigError
  | [] => (s, none)
  | a :: rest =>
    if a.name = heartbeatDatabase then
      match a.value with
      | .str v => ScrapeHeartbeat.Configure { s with database := v } rest
      | _ => (s, some (wrongArgTypeError s.Name a.name a.value))
    else if a.name = heartbeatTable then
      match a.value with
      | .str v => ScrapeHeartbeat.Configure { s with table := v } rest
      | _ => (s, some (wrongArgTypeError s.Name a.name a.value))
    else if a.name = heartbeatUtc then
      match a.value with
      | .bool b => ScrapeHeartbeat.Configure { s with utc := b } rest
      | _ => (s, some (wrongArgTypeError s.Name a.name a.value))
    else
      (s, some (unknownArgError s.Name a.name))

/-- `nowExpr`: the current-timestamp SQL expression. -/
def nowExpr (utc : Bool) : String :=
  if utc then "UTC_TIMESTAMP(6)" else "NOW(6)"

/-- The query built by `Scrape` from `heartbeatQuery`,
`fmt.Sprintf(heartbeatQuery, nowExpr(s.utc), s.database, s.table)`. -/
def ScrapeHeartbeat.query (s : ScrapeHeartbeat) : String :=
  "SELECT UNIX_TIMESTAMP(ts), UNIX_TIMESTAMP(" ++ nowExpr s.utc ++
    "), server_id from `" ++ s.database ++ "`.`" ++ s.table ++ "`"

/-! ## Scraper values

Go dispatches through the `Scraper` interface.  The only implementation in the
sources is `ScrapeHeartbeat`; the interface is open, so the embedding adds a
generic non-`Configurable` implementation (`other`) standing for any further
collector, identified by its name and an opaque payload distinguishing
instances that share a name. -/

inductive Scraper where
  | heartbeat (s : ScrapeHeartbeat)
  | other (name : String) (id : Nat)
deriving DecidableEq

def Scraper.Name : Scraper → String
  | .heartbeat s => s.Name
  | .other n _ => n

/-- Declared argument definitions of a scraper: `heartbeatArgDefs` for the
heartbeat scraper; `other` does not implement `Configurable` and declares
none. -/
def Scraper.ArgDefinitions : Scraper → List argDef
  | .heartbeat s => s.ArgDefinitions
  | .other _ _ => []

/-! ## Association lists for Go maps -/

/-- Go map indexing `m[k]` (with the `ok` flag given by `Option.isSome`). -/
def assocLookup {α : Type} (key : String) : List (String × α) → Option α
  | [] => none
  | (k, v) :: rest => if k = key then some v else assocLookup key rest

/-- Go map assignment `m[k] = v`: overwrite if the key is present, otherwise
add a binding. -/
def assocInsert {α : Type} (m : List (String × α)) (key : String) (v : α) :
    List (String × α) :=
  if (assocLookup key m).isSome then
    m.map (fun p => if p.1 = key then (key, v) else p)
  else
    m ++ [(key, v)]

/-! ## Scraper registry (from `src/unnamed/part_000`) -/

/-- CLI flag binding (`*kingpin.FlagClause`): the help text and the scraper
that contributed the binding (enough to tell two scrapers' bindings apart). -/
structure FlagClause where
  flagHelp : String
  flagOwner : String
deriving DecidableEq

/-- A registry entry: enabled flag, CLI flag bindings keyed by flag name, and
the scraper instance. -/
structure scraperEntry where
  enabled : Bool
  flags : List (String × FlagClause)
  scraper : Scraper
deriving DecidableEq

/-- The registry state, `map[string]*scraperEntry` keyed by scraper name.  The
empty list is the initial `make(map[string]*scraperEntry)` state. -/
abbrev Registry := List (String × scraperEntry)

/-- Modelled from the spec: `makeFlagsFromScraper` lives outside `src/`.  Per
the spec's CLI surface, each scraper contributes one enable/disable flag plus
one value flag per declared argument, named deterministically from the scraper
name and the argument name. -/
def makeFlagsFromScraper (s : Scraper) (enabled : Bool) : List (String × FlagClause) :=
  ("collect." ++ s.Name,
    ⟨"Enable the " ++ s.Name ++ " scraper (default: " ++
      (if enabled then "enabled" else "disabled") ++ ")", s.Name⟩) ::
  s.ArgDefinitions.map (fun d => ("collect." ++ s.Name ++ "." ++ d.name, ⟨d.help, s.Name⟩))

/-- `AllScrapers()`: every registered instance (in iteration order). -/
def AllScrapers (reg : Registry) : List Scraper :=
  reg.map (fun p => p.2.scraper)

/-- `IsScraperEnabled(name)`: `false` for an unknown name, else the entry's
enabled flag. -/
def IsScraperEnabled (name : String) (reg : Registry) : Bool :=
  match assocLookup name reg with
  | none => false
  | some se => se.enabled

/-- `LookupScraper(name)`: the instance plus the found flag. -/
def LookupScraper (name : String) (reg : Registry) : Option Scraper × Bool :=
  match assocLookup name reg with
  | none => (none, false)
  | some se => (some se.scraper, true)

/-- `SetScraperEnabled(name, enabled)`: update the entry in place when the
name is present, otherwise do nothing. -/
def SetScraperEnabled (name : String) (enabled : Bool) (reg : Registry) : Registry :=
  reg.map (fun p => if p.1 = name then (p.1, { p.2 with enabled := enabled }) else p)

/-- `registerScraper(s, enabled)`: duplicate-name error when the name is
already bound, otherwise insert a fresh entry.  The returned pair is the
registry state after the call together with the returned error. -/
def registerScraper (s : Scraper) (enabled : Bool) (reg : Registry) :
    Registry × Option String :=
  if (assocLookup s.Name reg).isSome then
    (reg, some ("scraper with name " ++ s.Name ++ " is already registered"))
  else
    (reg ++ [(s.Name, ⟨enabled, makeFlagsFromScraper s enabled, s⟩)], none)

/-- `mustRegisterScraperWithDefaults(s, enabled)`: when the scraper implements
`Configurable`, first apply its own declared defaults via `Configure`, then
plain-register; any failure panics (`some` message in the second component,
registry left as it was). -/
def mustRegisterScraperWithDefaults (s : Scraper) (enabled : Bool) (reg : Registry) :
    Registry × Option String :=
  match s with
  | .heartbeat hs =>
    match hs.Configure (defaultArgs (Scraper.heartbeat hs).ArgDefinitions) with
    | (_, some e) => (reg, some ("bug: " ++ e.message))
    | (hs2, none) =>
      match registerScraper (.heartbeat hs2) enabled reg with
      | (reg2, some e) => (reg2, some ("bug: " ++ e))
      | (reg2, none) => (reg2, none)
  | .other n i =>
    match registerScraper (.other n i) enabled reg with
    | (reg2, some e) => (reg2, some ("bug: " ++ e))
    | (reg2, none) => (reg2, none)

/-- A sequence of `registerScraper` calls, stopping at the first failure. -/
def registerAll : List (Scraper × Bool) → Registry → Registry × Option String
  | [], reg => (reg, none)
  | (s, en) :: rest, reg =>
    match registerScraper s en reg with
    | (reg2, none) => registerAll rest reg2
    | (reg2, some e) => (reg2, some e)

/-- Writing every binding of `fs` into the map `m`, in order (the inner
`for name, flag := range s.flags` loop). -/
def assocInsertList {α : Type} (m fs : List (String × α)) : List (String × α) :=
  fs.foldl (fun acc p => assocInsert acc p.1 p.2) m

/-- `AllScraperFlags()` as a function of the order in which the `range` loop
visits the registry entries: every binding of every visited entry is written
into the accumulating map.  The inner loop over one entry's `flags` map is
order-independent because a Go map has pairwise-distinct keys. -/
def AllScraperFlagsInOrder (entries : List scraperEntry) : List (String × FlagClause) :=
  entries.foldl (fun acc se => assocInsertList acc se.flags) []

/-- `AllScraperFlags()` when the iteration happens to visit entries in
registration order. -/
def AllScraperFlags (reg : Registry) : List (String × FlagClause) :=
  AllScraperFlagsInOrder (reg.map Prod.snd)

/-- `orLookup key fs o`: the binding of `key` in `fs` when present, otherwise
`o` (the effect one map has on an accumulated lookup result). -/
def orLookup {α : Type} (key : String) (fs : List (String × α)) (o : Option α) : Option α :=
  match assocLookup key fs with
  | some v => some v
  | none => o

/-- The binding for `key` contributed by the entry visited last among those
that bind `key`. -/
def lastBinding (entries : List scraperEntry) (key : String) : Option FlagClause :=
  entries.foldl (fun acc se => orLookup key se.flags acc) none

/-! ## Heartbeat `Scrape` (row loop)

`Scrape` builds the query, runs it, and for every row scans
`(ts, now, server_id)`, parses the two timestamp strings as floats, and sends
two gauge metrics.  The embedding takes the scanned rows as input (query
execution, row iteration and scanning are the database driver's work); numeric
values are rationals. -/

/-- One scanned row: the raw `ts` and `now` strings and the `server_id`. -/
structure Row where
  ts : String
  now : String
  serverId : Int
deriving DecidableEq

def digitsVal (cs : List Char) : Nat :=
  cs.foldl (fun n c => 10 * n + (c.toNat - 48)) 0

def isDigits (cs : List Char) : Bool :=
  !cs.isEmpty && cs.all (fun c => c.isDigit)

/-- Model of Go's `strconv.ParseFloat` restricted to signed decimal literals
(optional sign, digits, optional fraction) — the form `UNIX_TIMESTAMP`
renderings take.  Returns `none` exactly when parsing fails. -/
def parseFloat (s : String) : Option ℚ :=
  let signed : Bool × List Char :=
    match s.data with
    | '-' :: rest => (true, rest)
    | '+' :: rest => (false, rest)
    | cs => (false, cs)
  let cs := signed.2
  let intPart := cs.takeWhile (fun c => c != '.')
  let dotPart := cs.dropWhile (fun c => c != '.')
  let mag : Option (Int × Nat) :=
    match dotPart with
    | [] => if isDigits intPart then some ((digitsVal intPart : Int), 1) else none
    | _ :: frac =>
      if isDigits intPart && isDigits frac then
        some ((digitsVal intPart * 10 ^ frac.length + digitsVal frac : Nat), 10 ^ frac.length)
      else none
  match mag with
  | none => none
  | some (n, d) => some (mkRat (if signed.1 then -n else n) d)

/-- Go's `strconv.Itoa` applied to the scanned `server_id`. -/
def itoa (n : Int) : String := toString n

/-- Model of `strconv.ParseFloat`'s error for an unparsable input. -/
def parseErrorMsg (input : String) : String :=
  "strconv.ParseFloat: parsing \"" ++ input ++ "\": invalid syntax"

/-- A Prometheus metric descriptor (name, help, variable label names). -/
structure Desc where
  fqName : String
  help : String
  variableLabels : List String
deriving DecidableEq

/-- Modelled from the spec: the exporter-wide metric `namespace` constant
lives outside `src/`; the exporter's metrics are namespaced `mysql`. -/
def namespaceStr : String := "mysql"

/-- `prometheus.BuildFQName`. -/
def buildFQName (ns sub name : String) : String :=
  ns ++ "_" ++ sub ++ "_" ++ name

/-- The `heartbeat` Metric subsystem constant. -/
def heartbeat : String := "heartbeat"

def HeartbeatStoredDesc : Desc :=
  ⟨buildFQName namespaceStr heartbeat "stored_timestamp_seconds",
   "Timestamp stored in the heartbeat table.", ["server_id"]⟩

def HeartbeatNowDesc : Desc :=
  ⟨buildFQName namespaceStr heartbeat "now_timestamp_seconds",
   "Timestamp of the current server.", ["server_id"]⟩

inductive MetricKind where
  | gauge
  | counter
deriving DecidableEq

/-- One sample sent on the output channel
(`prometheus.MustNewConstMetric(desc, kind, value, labels...)`). -/
structure Metric where
  desc : Desc
  kind : MetricKind
  value : ℚ
  labelValues : List String
deriving DecidableEq

/-- The row loop of `ScrapeHeartbeat.Scrape`: parse `ts`, then `now`
(returning the parse error immediately on failure, before anything is sent for
that row), then send the now-gauge and the stored-gauge labeled with the
decimal `server_id`.  Returns the metrics sent, in order, and the returned
error. -/
def scrapeHeartbeatRows : List Row → List Metric × Option String
  | [] => ([], none)
  | r :: rest =>
    match parseFloat r.ts with
    | none => ([], some (parseErrorMsg r.ts))
    | some tsFloatVal =>
      match parseFloat r.now with
      | none => ([], some (parseErrorMsg r.now))
      | some nowFloatVal =>
      match scrapeHeartbeatRows rest with
      | (ms, e) =>
        (⟨HeartbeatNowDesc, .gauge, nowFloatVal, [itoa r.serverId]⟩ ::
         ⟨HeartbeatStoredDesc, .gauge, tsFloatVal, [itoa r.serverId]⟩ :: ms, e)

/-- `Scrape`: with query execution abstracted into the scanned `rows`, the
observable behaviour is the row loop.  (The configured state only shapes the
query text, `ScrapeHeartbeat.query`.) -/
def ScrapeHeartbeat.Scrape (_ : ScrapeHeartbeat) (rows : List Row) :
    List Metric × Option String :=
  scrapeHeartbeatRows rows

/-- The two metrics `Scrape` sends for one successfully parsed row. -/
def rowMetrics (r : Row) : List Metric :=
  match parseFloat r.ts, parseFloat r.now with
  | some tsFloatVal, some nowFloatVal =>
    [⟨HeartbeatNowDesc, .gauge, nowFloatVal, [itoa r.serverId]⟩,
     ⟨HeartbeatStoredDesc, .gauge, tsFloatVal, [itoa r.serverId]⟩]
  | _, _ => []

/-- The error `Scrape` returns for a row whose timestamps fail to parse (the
`ts` parse runs first). -/
def rowFailure (r : Row) : String :=
  match parseFloat r.ts with
  | none => parseErrorMsg r.ts
  | some _ => parseErrorMsg r.now

/-! ## Spec-side characterisations used to state the claims -/

/-- An argument is accepted by a scraper's declarations when its name is
declared and the supplied value's variant tag matches the declared default's
tag. -/
def argAccepted (defs : List argDef) (a : Arg) : Bool :=
  match defs.find? (fun d => a.name = d.name) with
  | none => false
  | some d => a.value.tag == d.defaultValue.tag

/-- The effect of one accepted argument on heartbeat's private state. -/
def applyHeartbeatArg (s : ScrapeHeartbeat) (a : Arg) : ScrapeHeartbeat :=
  if a.name = heartbeatDatabase then
    match a.value with
    | .str v => { s with database := v }
    | _ => s
  else if a.name = heartbeatTable then
    match a.value with
    | .str v => { s with table := v }
    | _ => s
  else if a.name = heartbeatUtc then
    match a.value with
    | .bool b => { s with utc := b }
    | _ => s
  else s

/-- The error heartbeat's `Configure` produces for a rejected argument:
wrong-type when the name is declared (so only the tag mismatched), otherwise
unknown-argument; either way it bears the scraper name and argument name. -/
def heartbeatArgFailure (a : Arg) : ConfigError :=
  if (heartbeatArgDefs.find? (fun d => a.name = d.name)).isSome then
    wrongArgTypeError "heartbeat" a.name a.value
  else
    unknownArgError "heartbeat" a.name

/-- The registry built by successfully registering each scraper of `ps` in
order. -/
def entriesFor : List (Scraper × Bool) → Registry
  | [] => []
  | (s, en) :: rest => (s.Name, ⟨en, makeFlagsFromScraper s en, s⟩) :: entriesFor rest

/-! ## Concrete fixtures for witnesses and counterexamples -/

/-- The Go zero value `&ScrapeHeartbeat{}`. -/
def hbZero : ScrapeHeartbeat := ⟨"", "", false, false⟩

def scrA0 : Scraper := .other "a" 0

def scrA1 : Scraper := .other "a" 1

def entryA : scraperEntry := ⟨true, makeFlagsFromScraper scrA0 true, scrA0⟩

/-- A one-entry registry holding `scrA0` under name `"a"`. -/
def regA : Registry := [("a", entryA)]

/-- A scraper named `"heartbeat.database"`: its enable flag
`collect.heartbeat.database` collides with heartbeat's flag for the
`database` argument even though the scraper names differ. -/
def cexOther : Scraper := .other "heartbeat.database" 0

/-- The registry after registering heartbeat and then `cexOther` (both calls
succeed: the scraper names are distinct). -/
def cexReg : Registry := (registerAll [(.heartbeat hbZero, true), (cexOther, true)] []).1

def cexEntryHb : scraperEntry :=
  ⟨true, makeFlagsFromScraper (.heartbeat hbZero) true, .heartbeat hbZero⟩

def cexEntryOther : scraperEntry := ⟨true, makeFlagsFromScraper cexOther true, cexOther⟩

/-- A legitimate Go map iteration order over `cexReg`'s entries that visits
the later-registered scraper first. -/
def cexPerm : List scraperEntry := [cexEntryOther, cexEntryHb]

/-! ## Association-list lemmas -/

theorem assocLookup_cons {α : Type} (key k : String) (v : α) (rest : List (String × α)) :
    assocLookup key ((k, v) :: rest) = if k = key then some v else assocLookup key rest := rfl

theorem assocLookup_append_of_none {α : Type} {key : String} {l1 : List (String × α)}
    (l2 : List (String × α)) (h : assocLookup key l1 = none) :
    assocLookup key (l1 ++ l2) = assocLookup key l2 := by
  induction l1 with
  | nil => rfl
  | cons p rest ih =>
    obtain ⟨k, v⟩ := p
    rw [assocLookup_cons] at h
    by_cases hk : k = key
    · rw [if_pos hk] at h
      exact absurd h (by simp)
    · rw [if_neg hk] at h
      rw [List.cons_append, assocLookup_cons, if_neg hk]
      exact ih h

theorem assocLookup_append_of_some {α : Type} {key : String} {l1 : List (String × α)}
    {v : α} (l2 : List (String × α)) (h : assocLookup key l1 = some v) :
    assocLookup key (l1 ++ l2) = some v := by
  induction l1 with
  | nil => simp [assocLookup] at h
  | cons p rest ih =>
    obtain ⟨k, w⟩ := p
    rw [assocLookup_cons] at h
    rw [List.cons_append, assocLookup_cons]
    by_cases hk : k = key
    · rwa [if_pos hk] at h ⊢
    · rw [if_neg hk] at h ⊢
      exact ih h

theorem assocLookup_eq_none_iff {α : Type} (key : String) (l : List (String × α)) :
    assocLookup key l = none ↔ key ∉ l.map Prod.fst := by
  induction l with
  | nil => simp [assocLookup]
  | cons p rest ih =>
    obtain ⟨k, v⟩ := p
    rw [assocLookup_cons]
    by_cases hk : k = key
    · subst hk
      simp
    · simp [hk, ih, Ne.symm hk]

/-! ## Registry lemmas -/

theorem entriesFor_keys (ps : List (Scraper × Bool)) :
    (entriesFor ps).map Prod.fst = ps.map (fun p => p.1.Name) := by
  induction ps with
  | nil => rfl
  | cons p rest ih =>
    obtain ⟨s, en⟩ := p
    simp [entriesFor, ih]

theorem entriesFor_lookup (ps : List (Scraper × Bool)) (p : Scraper × Bool)
    (hnd : (ps.map (fun q => q.1.Name)).Nodup) (hp : p ∈ ps) :
    assocLookup p.1.Name (entriesFor ps) =
      some ⟨p.2, makeFlagsFromScraper p.1 p.2, p.1⟩ := by
  induction ps with
  | nil => cases hp
  | cons q rest ih =>
    obtain ⟨s, en⟩ := q
    rw [List.map_cons] at hnd
    rcases List.mem_cons.mp hp with heq | hmem
    · subst heq
      simp [entriesFor, assocLookup_cons]
    · have hne : s.Name ≠ p.1.Name := by
        intro h
        refine (List.nodup_cons.mp hnd).1 ?_
        exact h ▸ List.mem_map_of_mem (fun q => q.1.Name) hmem
      rw [entriesFor, assocLookup_cons, if_neg hne]
      exact ih (List.nodup_cons.mp hnd).2 hmem

theorem registerAll_ok (ps : List (Scraper × Bool)) (reg0 : Registry)
    (hnd : (ps.map (fun p => p.1.Name)).Nodup)
    (hfresh : ∀ p ∈ ps, assocLookup p.1.Name reg0 = none) :
    registerAll ps reg0 = (reg0 ++ entriesFor ps, none) := by
  induction ps generalizing reg0 with
  | nil => simp [registerAll, entriesFor]
  | cons p rest ih =>
    obtain ⟨s, en⟩ := p
    rw [List.map_cons] at hnd
    have hs : assocLookup s.Name reg0 = none := hfresh (s, en) (List.mem_cons_self _ _)
    have hnd' : (rest.map (fun p => p.1.Name)).Nodup := (List.nodup_cons.mp hnd).2
    have hsni : s.Name ∉ rest.map (fun p => p.1.Name) := (List.nodup_cons.mp hnd).1
    rw [registerAll, registerScraper, hs]
    simp only [Option.isSome_none, Bool.false_eq_true, if_false]
    rw [ih _ hnd' ?_]
    · rw [entriesFor, List.append_assoc]
      rfl
    · intro q hq
      have h1 : assocLookup q.1.Name reg0 = none := hfresh q (List.mem_cons_of_mem _ hq)
      have h2 : s.Name ≠ q.1.Name := by
        intro h
        exact hsni (h ▸ List.mem_map_of_mem (fun p => p.1.Name) hq)
      rw [assocLookup_append_of_none _ h1, assocLookup_cons, if_neg h2]
      rfl

/-! ## Claim theorems -/

/-- **C1.** For every scraper `s` whose name is already bound in the registry,
`registerScraper s enabled` returns the duplicate-name error and leaves the
whole registry — in particular the existing entry's enabled flag, flag
bindings and scraper instance — unchanged; it never overwrites. -/
theorem registerScraper_duplicate_rejects (s : Scraper) (en : Bool) (reg : Registry)
    (e0 : scraperEntry) (h : assocLookup s.Name reg = some e0) :
    registerScraper s en reg =
      (reg, some ("scraper with name " ++ s.Name ++ " is already registered")) := by
  simp [registerScraper, h]

/-- Witness for C1: registering a second scraper named `"a"` (a different
instance) against a registry already holding one fails and leaves the registry
intact. -/
theorem registerScraper_duplicate_rejects_witness :
    assocLookup scrA1.Name regA = some entryA ∧
    registerScraper scrA1 false regA =
      (regA, some ("scraper with name " ++ scrA1.Name ++ " is already registered")) :=
  ⟨by decide, registerScraper_duplicate_rejects scrA1 false regA entryA (by decide)⟩

/-- **C2.** For every sequence of registrations of scrapers with
pairwise-distinct names starting from the empty registry, every call succeeds,
the registry holds exactly one entry per name (its keys are exactly the
registered names, in order), and `LookupScraper` on each name returns the
originally registered instance unchanged together with `found = true`. -/
theorem registerAll_distinct_names (ps : List (Scraper × Bool))
    (hnd : (ps.map (fun p => p.1.Name)).Nodup) :
    (registerAll ps []).2 = none ∧
    (registerAll ps []).1.map Prod.fst = ps.map (fun p => p.1.Name) ∧
    ∀ p ∈ ps, LookupScraper p.1.Name (registerAll ps []).1 = (some p.1, true) := by
  have h := registerAll_ok ps [] hnd (fun p _ => rfl)
  rw [List.nil_append] at h
  refine ⟨by rw [h], by rw [h]; exact entriesFor_keys ps, ?_⟩
  intro p hp
  rw [h]
  simp only [LookupScraper]
  rw [entriesFor_lookup ps p hnd hp]

/-- Witness for C2: registering the scraper `"a"` and the heartbeat scraper
(distinct names) yields a two-entry registry where each lookup finds the
original instance. -/
theorem registerAll_distinct_names_witness :
    (([(scrA0, true), (.heartbeat hbZero, false)].map (fun p => p.1.Name)).Nodup) ∧
    ((registerAll [(scrA0, true), (.heartbeat hbZero, false)] []).2 = none ∧
     (registerAll [(scrA0, true), (.heartbeat hbZero, false)] []).1.map Prod.fst =
       [(scrA0, true), ((.heartbeat hbZero : Scraper), false)].map (fun p => p.1.Name) ∧
     ∀ p ∈ [(scrA0, true), ((.heartbeat hbZero : Scraper), false)],
       LookupScraper p.1.Name (registerAll [(scrA0, true), (.heartbeat hbZero, false)] []).1 =
         (some p.1, true)) :=
  ⟨by decide, registerAll_distinct_names [(scrA0, true), (.heartbeat hbZero, false)] (by decide)⟩

/-- **C3.** For every registered name and boolean `b`, `SetScraperEnabled
name b` followed by `IsScraperEnabled name` (no intervening mutation)
returns `b`. -/
theorem setScraperEnabled_then_isScraperEnabled (name : String) (b : Bool) (reg : Registry)
    (h : (assocLookup name reg).isSome) :
    IsScraperEnabled name (SetScraperEnabled name b reg) = b := by
  induction reg with
  | nil => simp [assocLookup] at h
  | cons p rest ih =>
    obtain ⟨k, se⟩ := p
    by_cases hk : k = name
    · subst hk
      simp [SetScraperEnabled, IsScraperEnabled, assocLookup_cons]
    · rw [assocLookup_cons, if_neg hk] at h
      simpa [SetScraperEnabled, IsScraperEnabled, assocLookup_cons, hk] using ih h

/-- Witness for C3: disabling the registered scraper `"a"` is observed by
`IsScraperEnabled`. -/
theorem setScraperEnabled_then_isScraperEnabled_witness :
    ((assocLookup "a" regA).isSome) ∧
    IsScraperEnabled "a" (SetScraperEnabled "a" false regA) = false :=
  ⟨by decide, setScraperEnabled_then_isScraperEnabled "a" false regA (by decide)⟩

/-- **C4.** For every name not present in the registry, `SetScraperEnabled` is
a silent no-op: the registry afterwards is exactly the registry before (no
entry is created and every existing entry is untouched). -/
theorem setScraperEnabled_unknown_noop (name : String) (b : Bool) (reg : Registry)
    (h : assocLookup name reg = none) :
    SetScraperEnabled name b reg = reg := by
  induction reg with
  | nil => rfl
  | cons p rest ih =>
    obtain ⟨k, se⟩ := p
    rw [assocLookup_cons] at h
    by_cases hk : k = name
    · rw [if_pos hk] at h
      exact absurd h (by simp)
    · rw [if_neg hk] at h
      have ih' := ih h
      simp only [SetScraperEnabled] at ih' ⊢
      rw [List.map_cons, ih']
      simp [hk]

/-- Witness for C4: toggling the never-registered name `"zz"` leaves the
registry unchanged. -/
theorem setScraperEnabled_unknown_noop_witness :
    assocLookup "zz" regA = none ∧ SetScraperEnabled "zz" true regA = regA :=
  ⟨by decide, setScraperEnabled_unknown_noop "zz" true regA (by decide)⟩

/-- **C10.** For every name not present in the registry, `IsScraperEnabled`
returns `false` — the same answer as for a registered-but-disabled scraper,
and no panic. -/
theorem isScraperEnabled_unknown_false (name : String) (reg : Registry)
    (h : assocLookup name reg = none) :
    IsScraperEnabled name reg = false := by
  simp [IsScraperEnabled, h]

/-- Witness for C10: an unknown name reads as disabled. -/
theorem isScraperEnabled_unknown_false_witness :
    assocLookup "zz" regA = none ∧ IsScraperEnabled "zz" regA = false :=
  ⟨by decide, isScraperEnabled_unknown_false "zz" regA (by decide)⟩

/-! ## Configure lemmas -/

theorem configure_cons_ok (s : ScrapeHeartbeat) (a : Arg) (l : List Arg)
    (ha : argAccepted heartbeatArgDefs a = true) :
    s.Configure (a :: l) = (applyHeartbeatArg s a).Configure l := by
  obtain ⟨n, v⟩ := a
  by_cases h1 : n = heartbeatDatabase
  · subst h1
    cases v with
    | str x => rfl
    | bool b => simp [argAccepted, heartbeatArgDefs, GoValue.tag] at ha
    | num q => simp [argAccepted, heartbeatArgDefs, GoValue.tag] at ha
  · by_cases h2 : n = heartbeatTable
    · subst h2
      cases v with
      | str x => simp [ScrapeHeartbeat.Configure, applyHeartbeatArg, heartbeatTable, heartbeatDatabase]
      | bool b => simp [argAccepted, heartbeatArgDefs, GoValue.tag, heartbeatTable, heartbeatDatabase] at ha
      | num q => simp [argAccepted, heartbeatArgDefs, GoValue.tag, heartbeatTable, heartbeatDatabase] at ha
    · by_cases h3 : n = heartbeatUtc
      · subst h3
        cases v with
        | bool b =>
          simp [ScrapeHeartbeat.Configure, applyHeartbeatArg, heartbeatUtc, heartbeatTable,
            heartbeatDatabase]
        | str x =>
          simp [argAccepted, heartbeatArgDefs, GoValue.tag, heartbeatUtc, heartbeatTable,
            heartbeatDatabase] at ha
        | num q =>
          simp [argAccepted, heartbeatArgDefs, GoValue.tag, heartbeatUtc, heartbeatTable,
            heartbeatDatabase] at ha
      · exfalso
        simp [argAccepted, heartbeatArgDefs, List.find?, h1, h2, h3] at ha

theorem configure_cons_fail (s : ScrapeHeartbeat) (a : Arg) (l : List Arg)
    (ha : argAccepted heartbeatArgDefs a = false) :
    s.Configure (a :: l) = (s, some (heartbeatArgFailure a)) := by
  obtain ⟨n, v⟩ := a
  by_cases h1 : n = heartbeatDatabase
  · subst h1
    cases v with
    | str x => simp [argAccepted, heartbeatArgDefs, GoValue.tag] at ha
    | bool b =>
      simp [ScrapeHeartbeat.Configure, heartbeatArgFailure, heartbeatArgDefs, ScrapeHeartbeat.Name,
        wrongArgTypeError]
    | num q =>
      simp [ScrapeHeartbeat.Configure, heartbeatArgFailure, heartbeatArgDefs, ScrapeHeartbeat.Name,
        wrongArgTypeError]
  · by_cases h2 : n = heartbeatTable
    · subst h2
      cases v with
      | str x =>
        simp [argAccepted, heartbeatArgDefs, GoValue.tag, heartbeatTable, heartbeatDatabase] at ha
      | bool b =>
        simp [ScrapeHeartbeat.Configure, heartbeatArgFailure, heartbeatArgDefs,
          ScrapeHeartbeat.Name, wrongArgTypeError, heartbeatTable, heartbeatDatabase]
      | num q =>
        simp [ScrapeHeartbeat.Configure, heartbeatArgFailure, heartbeatArgDefs,
          ScrapeHeartbeat.Name, wrongArgTypeError, heartbeatTable, heartbeatDatabase]
    · by_cases h3 : n = heartbeatUtc
      · subst h3
        cases v with
        | bool b =>
          simp [argAccepted, heartbeatArgDefs, GoValue.tag, heartbeatUtc, heartbeatTable,
            heartbeatDatabase] at ha
        | str x =>
          simp [ScrapeHeartbeat.Configure, heartbeatArgFailure, heartbeatArgDefs,
            ScrapeHeartbeat.Name, wrongArgTypeError, heartbeatUtc, heartbeatTable, heartbeatDatabase]
        | num q =>
          simp [ScrapeHeartbeat.Configure, heartbeatArgFailure, heartbeatArgDefs,
            ScrapeHeartbeat.Name, wrongArgTypeError, heartbeatUtc, heartbeatTable, heartbeatDatabase]
      · simp [ScrapeHeartbeat.Configure, heartbeatArgFailure, heartbeatArgDefs,
          ScrapeHeartbeat.Name, unknownArgError, List.find?, h1, h2, h3]

/-- **C5.** For every argument sequence handed to heartbeat's `Configure` that
consists of accepted arguments followed by a first rejected one, the accepted
prefix is applied to the private state in order, `Configure` stops at the
rejected argument with an error bearing the scraper name and the argument name
(wrong-type when the name is declared but the variant tag differs from the
declared default's tag, unknown-argument when the name is undeclared), the
prefix's effects are kept (no rollback), and no later argument is applied. -/
theorem configure_stops_at_first_failure (s : ScrapeHeartbeat) (pre : List Arg) (a : Arg)
    (rest : List Arg) (hpre : ∀ x ∈ pre, argAccepted heartbeatArgDefs x = true)
    (hbad : argAccepted heartbeatArgDefs a = false) :
    s.Configure (pre ++ a :: rest) =
      (pre.foldl applyHeartbeatArg s, some (heartbeatArgFailure a)) := by
  induction pre generalizing s with
  | nil => simpa using configure_cons_fail s a rest hbad
  | cons x pre' ih =>
    rw [List.cons_append, configure_cons_ok s x _ (hpre x (List.mem_cons_self _ _)),
      List.foldl_cons]
    exact ih _ (fun y hy => hpre y (List.mem_cons_of_mem _ hy))

/-- Witness for C5: a valid database override, then a wrongly-typed `utc`
value, then a table override: the database override sticks, `Configure` fails
with the wrong-type error naming `heartbeat` and `utc`, and the table is never
set. -/
theorem configure_stops_at_first_failure_witness :
    (∀ x ∈ [(⟨heartbeatDatabase, .str "db1"⟩ : Arg)], argAccepted heartbeatArgDefs x = true) ∧
    argAccepted heartbeatArgDefs ⟨heartbeatUtc, .str "x"⟩ = false ∧
    hbZero.Configure
        ([⟨heartbeatDatabase, .str "db1"⟩] ++
          (⟨heartbeatUtc, .str "x"⟩ : Arg) :: [⟨heartbeatTable, .str "t2"⟩]) =
      ([(⟨heartbeatDatabase, .str "db1"⟩ : Arg)].foldl applyHeartbeatArg hbZero,
        some (heartbeatArgFailure ⟨heartbeatUtc, .str "x"⟩)) :=
  ⟨by decide, by decide,
    configure_stops_at_first_failure hbZero [⟨heartbeatDatabase, .str "db1"⟩]
      ⟨heartbeatUtc, .str "x"⟩ [⟨heartbeatTable, .str "t2"⟩] (by decide) (by decide)⟩

/-- **C7.** `mustRegisterScraperWithDefaults` on the heartbeat scraper first
applies heartbeat's declared defaults via `Configure` and then registers the
configured instance: bootstrap-registering the zero-valued heartbeat scraper
enabled succeeds, `IsScraperEnabled "heartbeat"` afterwards returns `true`,
the registered instance is the default-configured one, and its `Args()` are
exactly the three declared defaults
`{database: "heartbeat", table: "heartbeat", utc: false}`. -/
theorem mustRegister_heartbeat_bootstrap :
    (mustRegisterScraperWithDefaults (.heartbeat hbZero) true []).2 = none ∧
    IsScraperEnabled "heartbeat"
      (mustRegisterScraperWithDefaults (.heartbeat hbZero) true []).1 = true ∧
    LookupScraper "heartbeat" (mustRegisterScraperWithDefaults (.heartbeat hbZero) true []).1 =
      (some (.heartbeat (hbZero.Configure (defaultArgs heartbeatArgDefs)).1), true) ∧
    (hbZero.Configure (defaultArgs heartbeatArgDefs)).1 =
      ⟨"heartbeat", "heartbeat", false, false⟩ ∧
    ((hbZero.Configure (defaultArgs heartbeatArgDefs)).1).Args =
      [⟨heartbeatDatabase, .str "heartbeat"⟩, ⟨heartbeatTable, .str "heartbeat"⟩,
       ⟨heartbeatUtc, .bool false⟩] := by
  decide

/-! ## Scrape theorems -/

/-- **C8.** For every result row whose two timestamp strings parse as numbers,
`Scrape` delivers exactly two gauge samples for that row, both labeled with
the row's `server_id` rendered as a decimal string: the now-timestamp gauge
carries the parsed current timestamp and the stored-timestamp gauge carries
the parsed stored timestamp; the rest of the scrape is unaffected. -/
theorem scrape_row_two_gauges (s : ScrapeHeartbeat) (r : Row) (rest : List Row) (a b : ℚ)
    (hts : parseFloat r.ts = some a) (hnow : parseFloat r.now = some b) :
    s.Scrape (r :: rest) =
      (⟨HeartbeatNowDesc, .gauge, b, [itoa r.serverId]⟩ ::
       ⟨HeartbeatStoredDesc, .gauge, a, [itoa r.serverId]⟩ :: (s.Scrape rest).1,
       (s.Scrape rest).2) := by
  simp only [ScrapeHeartbeat.Scrape, scrapeHeartbeatRows, hts, hnow]

/-- Witness for C8: the row `(storedTs = "100.5", nowTs = "200.75",
serverId = 7)` produces exactly the now-gauge `200.75` and the stored-gauge
`100.5`, each labeled `server_id = "7"`. -/
theorem scrape_row_two_gauges_witness :
    parseFloat "100.5" = some (mkRat 201 2) ∧
    parseFloat "200.75" = some (mkRat 803 4) ∧
    hbZero.Scrape [⟨"100.5", "200.75", 7⟩] =
      (⟨HeartbeatNowDesc, .gauge, mkRat 803 4, [itoa (7 : Int)]⟩ ::
       ⟨HeartbeatStoredDesc, .gauge, mkRat 201 2, [itoa (7 : Int)]⟩ ::
         (hbZero.Scrape []).1,
       (hbZero.Scrape []).2) :=
  ⟨by decide, by decide,
    scrape_row_two_gauges hbZero ⟨"100.5", "200.75", 7⟩ [] (mkRat 201 2) (mkRat 803 4)
      (by decide) (by decide)⟩

/-- **C9.** For every scrape whose rows are a fully-parsing prefix, then a row
with an unparsable stored or current timestamp, then anything: the scrape
returns the parse error, the emitted samples are exactly the two-per-row
samples of the prefix (earlier rows' samples remain delivered), and no sample
of the failing row or of any later row is emitted — per-row emission is
atomic because both parses precede both sends. -/
theorem scrape_parse_error_atomic (s : ScrapeHeartbeat) (pre : List Row) (r : Row)
    (rest : List Row)
    (hpre : ∀ x ∈ pre, (parseFloat x.ts).isSome ∧ (parseFloat x.now).isSome)
    (hbad : parseFloat r.ts = none ∨ parseFloat r.now = none) :
    s.Scrape (pre ++ r :: rest) = ((pre.map rowMetrics).flatten, some (rowFailure r)) := by
  induction pre with
  | nil =>
    rcases hbad with h | h
    · simp only [List.nil_append, ScrapeHeartbeat.Scrape, scrapeHeartbeatRows, h, List.map_nil,
        List.flatten_nil, rowFailure]
    · rcases hts : parseFloat r.ts with _ | a
      · simp only [List.nil_append, ScrapeHeartbeat.Scrape, scrapeHeartbeatRows, hts,
          List.map_nil, List.flatten_nil, rowFailure]
      · simp only [List.nil_append, ScrapeHeartbeat.Scrape, scrapeHeartbeatRows, hts, h,
          List.map_nil, List.flatten_nil, rowFailure]
  | cons x pre' ih =>
    obtain ⟨ha, hb⟩ := hpre x (List.mem_cons_self _ _)
    rcases hts : parseFloat x.ts with _ | a
    · rw [hts] at ha
      exact absurd ha (by simp)
    · rcases hnow : parseFloat x.now with _ | b
      · rw [hnow] at hb
        exact absurd hb (by simp)
      · have ih' := ih (fun y hy => hpre y (List.mem_cons_of_mem _ hy))
        simp only [ScrapeHeartbeat.Scrape] at ih'
        simp only [List.cons_append, ScrapeHeartbeat.Scrape, scrapeHeartbeatRows, hts, hnow,
          List.append_eq, ih', List.map_cons, List.flatten_cons, rowMetrics, List.nil_append]

/-- Witness for C9: a good first row followed by a row with the unparsable
stored timestamp `"abc"`: the two samples of the first row are delivered, the
scrape returns the parse error, and the bad row contributes nothing. -/
theorem scrape_parse_error_atomic_witness :
    (∀ x ∈ [(⟨"1.5", "2", 3⟩ : Row)], (parseFloat x.ts).isSome ∧ (parseFloat x.now).isSome) ∧
    (parseFloat "abc" = none ∨ parseFloat "200.75" = none) ∧
    hbZero.Scrape ([⟨"1.5", "2", 3⟩] ++ (⟨"abc", "200.75", 4⟩ : Row) :: [⟨"5", "6", 7⟩]) =
      (([(⟨"1.5", "2", 3⟩ : Row)].map rowMetrics).flatten,
        some (rowFailure ⟨"abc", "200.75", 4⟩)) :=
  ⟨by decide, by decide,
    scrape_parse_error_atomic hbZero [⟨"1.5", "2", 3⟩] ⟨"abc", "200.75", 4⟩ [⟨"5", "6", 7⟩]
      (by decide) (by decide)⟩

/-! ## `AllScraperFlags` lemmas -/

theorem assocLookup_map_overwrite {α : Type} (key : String) (v : α) (m : List (String × α)) :
    assocLookup key (m.map (fun p => if p.1 = key then (key, v) else p)) =
      if (assocLookup key m).isSome then some v else none := by
  induction m with
  | nil => simp [assocLookup]
  | cons p rest ih =>
    obtain ⟨k0, w⟩ := p
    by_cases hk : k0 = key
    · subst hk
      simp [assocLookup_cons]
    · simp only [List.map_cons, if_neg hk, assocLookup_cons, if_neg hk, ih]

theorem assocLookup_assocInsert_self {α : Type} (key : String) (v : α)
    (m : List (String × α)) :
    assocLookup key (assocInsert m key v) = some v := by
  rw [assocInsert]
  by_cases h : (assocLookup key m).isSome
  · rw [if_pos h, assocLookup_map_overwrite, if_pos h]
  · rw [if_neg h, assocLookup_append_of_none _ (by revert h; cases assocLookup key m <;> simp),
      assocLookup_cons, if_pos rfl]

theorem assocLookup_map_overwrite_ne {α : Type} {key k' : String} (v : α)
    (m : List (String × α)) (hne : k' ≠ key) :
    assocLookup k' (m.map (fun p => if p.1 = key then (key, v) else p)) =
      assocLookup k' m := by
  induction m with
  | nil => rfl
  | cons p rest ih =>
    obtain ⟨k0, w⟩ := p
    by_cases hk : k0 = key
    · subst hk
      simp [assocLookup_cons, Ne.symm hne, ih]
    · simp [assocLookup_cons, hk, ih]

theorem assocLookup_assocInsert_ne {α : Type} {key k' : String} (v : α)
    (m : List (String × α)) (hne : k' ≠ key) :
    assocLookup k' (assocInsert m key v) = assocLookup k' m := by
  rw [assocInsert]
  by_cases h : (assocLookup key m).isSome
  · rw [if_pos h, assocLookup_map_overwrite_ne v m hne]
  · rw [if_neg h]
    rcases hl : assocLookup k' m with _ | w
    · rw [assocLookup_append_of_none _ hl, assocLookup_cons, if_neg (Ne.symm hne)]
      rfl
    · rw [assocLookup_append_of_some _ hl]

theorem keys_map_overwrite {α : Type} (key : String) (v : α) (m : List (String × α)) :
    (m.map (fun p => if p.1 = key then (key, v) else p)).map Prod.fst = m.map Prod.fst := by
  induction m with
  | nil => rfl
  | cons p rest ih =>
    obtain ⟨k0, w⟩ := p
    by_cases hk : k0 = key
    · subst hk
      simp [ih]
    · simp [hk, ih]

theorem keys_assocInsert {α : Type} (key : String) (v : α) (m : List (String × α)) :
    (assocInsert m key v).map Prod.fst =
      if (assocLookup key m).isSome then m.map Prod.fst else m.map Prod.fst ++ [key] := by
  rw [assocInsert]
  by_cases h : (assocLookup key m).isSome
  · rw [if_pos h, if_pos h, keys_map_overwrite]
  · rw [if_neg h, if_neg h, List.map_append]
    rfl

theorem keysNodup_assocInsert {α : Type} (key : String) (v : α) (m : List (String × α))
    (h : (m.map Prod.fst).Nodup) : ((assocInsert m key v).map Prod.fst).Nodup := by
  rw [keys_assocInsert]
  by_cases hs : (assocLookup key m).isSome
  · rwa [if_pos hs]
  · rw [if_neg hs]
    have hni : key ∉ m.map Prod.fst := by
      rw [← assocLookup_eq_none_iff key m]
      revert hs
      cases assocLookup key m <;> simp
    simp [List.nodup_append, h, hni]

theorem assocLookup_assocInsertList {α : Type} (key : String) (m fs : List (String × α))
    (hnd : (fs.map Prod.fst).Nodup) :
    assocLookup key (assocInsertList m fs) = orLookup key fs (assocLookup key m) := by
  induction fs generalizing m with
  | nil => rfl
  | cons p rest ih =>
    obtain ⟨k0, v0⟩ := p
    rw [List.map_cons] at hnd
    have hrest : (rest.map Prod.fst).Nodup := (List.nodup_cons.mp hnd).2
    have hk0 : k0 ∉ rest.map Prod.fst := (List.nodup_cons.mp hnd).1
    rw [assocInsertList, List.foldl_cons]
    rw [show rest.foldl (fun acc p => assocInsert acc p.1 p.2) (assocInsert m k0 v0) =
          assocInsertList (assocInsert m k0 v0) rest from rfl, ih _ hrest]
    by_cases hk : k0 = key
    · subst hk
      have hnone : assocLookup k0 rest = none := (assocLookup_eq_none_iff k0 rest).mpr hk0
      simp [orLookup, hnone, assocLookup_cons, assocLookup_assocInsert_self]
    · simp only [orLookup, assocLookup_cons, if_neg hk,
        assocLookup_assocInsert_ne v0 m (fun h => hk h.symm)]

theorem keysNodup_assocInsertList {α : Type} (m fs : List (String × α))
    (h : (m.map Prod.fst).Nodup) : ((assocInsertList m fs).map Prod.fst).Nodup := by
  induction fs generalizing m with
  | nil => exact h
  | cons p rest ih =>
    rw [assocInsertList, List.foldl_cons]
    exact ih _ (keysNodup_assocInsert p.1 p.2 m h)

theorem assocLookup_flags_foldl (key : String) (entries : List scraperEntry)
    (m : List (String × FlagClause))
    (hnd : ∀ se ∈ entries, (se.flags.map Prod.fst).Nodup) :
    assocLookup key (entries.foldl (fun acc se => assocInsertList acc se.flags) m) =
      entries.foldl (fun acc se => orLookup key se.flags acc) (assocLookup key m) := by
  induction entries generalizing m with
  | nil => rfl
  | cons e rest ih =>
    rw [List.foldl_cons, List.foldl_cons,
      ih _ (fun se hse => hnd se (List.mem_cons_of_mem _ hse)),
      assocLookup_assocInsertList key m e.flags (hnd e (List.mem_cons_self _ _))]

theorem lastBinding_foldl_none_iff (key : String) (entries : List scraperEntry)
    (o : Option FlagClause) :
    entries.foldl (fun acc se => orLookup key se.flags acc) o = none ↔
      o = none ∧ ∀ se ∈ entries, assocLookup key se.flags = none := by
  induction entries generalizing o with
  | nil => simp
  | cons e rest ih =>
    rw [List.foldl_cons, ih]
    rcases he : assocLookup key e.flags with _ | v
    · simp [orLookup, he]
    · simp [orLookup, he]

theorem keysNodup_flags_foldl (entries : List scraperEntry) (m : List (String × FlagClause))
    (h : (m.map Prod.fst).Nodup) :
    ((entries.foldl (fun acc se => assocInsertList acc se.flags) m).map Prod.fst).Nodup := by
  induction entries generalizing m with
  | nil => exact h
  | cons e rest ih =>
    rw [List.foldl_cons]
    exact ih _ (keysNodup_assocInsertList _ _ h)

/-- **C6, counterexample.** After registering the heartbeat scraper and then a
scraper named `"heartbeat.database"` (both registrations succeed — scraper
names are distinct), both entries bind the flag name
`collect.heartbeat.database` with different bindings.  `cexPerm` is a
permutation of the registry's entries — a legitimate order for Go's `range`
loop to visit the map — under which `AllScraperFlags` keeps the
earlier-registered heartbeat's binding, not the later-registered scraper's:
"the binding of the later-registered scraper silently wins" fails. -/
theorem allScraperFlags_last_registered_cex :
    (registerAll [(.heartbeat hbZero, true), (cexOther, true)] []).2 = none ∧
    cexReg.map Prod.snd = [cexEntryHb, cexEntryOther] ∧
    cexPerm.Perm (cexReg.map Prod.snd) ∧
    (assocLookup "collect.heartbeat.database" cexEntryHb.flags).isSome = true ∧
    (assocLookup "collect.heartbeat.database" cexEntryOther.flags).isSome = true ∧
    assocLookup "collect.heartbeat.database" cexEntryHb.flags ≠
      assocLookup "collect.heartbeat.database" cexEntryOther.flags ∧
    assocLookup "collect.heartbeat.database" (AllScraperFlagsInOrder cexPerm) =
      assocLookup "collect.heartbeat.database" cexEntryHb.flags := by
  refine ⟨by decide, by decide, ?_, by decide, by decide, by decide, by decide⟩
  rw [show cexReg.map Prod.snd = [cexEntryHb, cexEntryOther] from by decide]
  exact List.Perm.swap cexEntryHb cexEntryOther []

/-- **C6, amended.** For every registry and every order in which the `range`
loop may visit its entries (any permutation), `AllScraperFlags` produces a
mapping with pairwise-distinct flag names whose value at each flag name is the
binding of the entry visited last among those that bind it — a silent
last-write-wins union, never an error — and a flag name is present exactly
when some registered scraper binds it (one entry per declared flag across all
scrapers).  Which scraper wins a collision is thus fixed by the unspecified
iteration order, not by registration order. -/
theorem allScraperFlags_union_last_iterated (reg : Registry) (perm : List scraperEntry)
    (hperm : perm.Perm (reg.map Prod.snd))
    (hnd : ∀ se ∈ reg.map Prod.snd, (se.flags.map Prod.fst).Nodup) :
    ((AllScraperFlagsInOrder perm).map Prod.fst).Nodup ∧
    (∀ k, assocLookup k (AllScraperFlagsInOrder perm) = lastBinding perm k) ∧
    (∀ k, assocLookup k (AllScraperFlagsInOrder perm) = none ↔
      ∀ se ∈ reg.map Prod.snd, assocLookup k se.flags = none) := by
  have hndp : ∀ se ∈ perm, (se.flags.map Prod.fst).Nodup :=
    fun se hse => hnd se (hperm.mem_iff.mp hse)
  refine ⟨?_, ?_, ?_⟩
  · exact keysNodup_flags_foldl perm [] (by simp)
  · intro k
    simp only [AllScraperFlagsInOrder, lastBinding]
    rw [assocLookup_flags_foldl k perm [] hndp]
    rfl
  · intro k
    simp only [AllScraperFlagsInOrder]
    rw [assocLookup_flags_foldl k perm [] hndp,
      show assocLookup k ([] : List (String × FlagClause)) = none from rfl,
      lastBinding_foldl_none_iff]
    constructor
    · rintro ⟨-, h⟩ se hse
      exact h se (hperm.mem_iff.mpr hse)
    · intro h
      exact ⟨rfl, fun se hse => h se (hperm.mem_iff.mp hse)⟩

/-- Witness for the amended C6, at the colliding two-scraper registry and the
identity iteration order. -/
theorem allScraperFlags_union_last_iterated_witness :
    (cexReg.map Prod.snd).Perm (cexReg.map Prod.snd) ∧
    (∀ se ∈ cexReg.map Prod.snd, (se.flags.map Prod.fst).Nodup) ∧
    (((AllScraperFlagsInOrder (cexReg.map Prod.snd)).map Prod.fst).Nodup ∧
     (∀ k, assocLookup k (AllScraperFlagsInOrder (cexReg.map Prod.snd)) =
        lastBinding (cexReg.map Prod.snd) k) ∧
     (∀ k, assocLookup k (AllScraperFlagsInOrder (cexReg.map Prod.snd)) = none ↔
        ∀ se ∈ cexReg.map Prod.snd, assocLookup k se.flags = none)) :=
  ⟨List.Perm.refl _, by decide,
    allScraperFlags_union_last_iterated cexReg (cexReg.map Prod.snd)
      (List.Perm.refl _) (by decide)⟩
